import Mathlib

/-!
Verification of the fortune-kind quote corpus engine against its design
specification.  The Rust sources `src/fortune.rs` and `src/random.rs` are
shallowly embedded below: strings are modelled as Lean `String` (lists of
characters under the hood), the process-level effects of `get_quote`
(printing, `exit(0)`, the call to the uniform sampler `random::random`) are
reified in the outcome type `QuoteOutput`, and `search_fortunes` is modelled
as the list of records it prints, in print order.  The corpus scanner
(module `file`) performs only I/O; its result, the list of candidate file
contents in enumeration order, is taken as an input of the embedded
functions.
-/

/-- The default maximum length for a short quote (`SHORT` in fortune.rs). -/
def SHORT : Nat := 150

/-- Model of Rust `str::trim` on the character list of a string: remove
leading and trailing whitespace.  (Rust trims Unicode white space; corpus
text is ASCII, where this coincides with `Char.isWhitespace`.) -/
def trimChars (l : List Char) : List Char :=
  ((l.dropWhile Char.isWhitespace).reverse.dropWhile Char.isWhitespace).reverse

/-- Model of Rust `str::split("\n%\n")`: cut the character list at every
non-overlapping occurrence of the delimiter, scanning left to right.
`n` occurrences yield `n + 1` (possibly empty) spans. -/
def splitDelim : List Char → List (List Char)
  | [] => [[]]
  | '\n' :: '%' :: '\n' :: rest => [] :: splitDelim rest
  | c :: rest =>
    match splitDelim rest with
    | [] => [[c]]
    | h :: t => (c :: h) :: t

/-- UTF-8 byte count of a character list; models Rust `str::len`, which is a
byte length, not a character count. -/
def utf8Len (l : List Char) : Nat := l.foldl (fun n c => n + c.utf8Size) 0

/-- Model of Rust `str::contains` for plain substring patterns: `pat` occurs
contiguously in `hay`.  The empty pattern is contained in every string. -/
def containsSub : List Char → List Char → Bool
  | [], pat => pat.isEmpty
  | a :: t, pat => pat.isPrefixOf (a :: t) || containsSub t pat

/-- `file.split("\n%\n")` lifted to `String`. -/
def splitQuotes (file : String) : List String :=
  (splitDelim file.data).map String.mk

/-- `s.trim()` lifted to `String`. -/
def trimStr (s : String) : String := String.mk (trimChars s.data)

/-- `s.contains(pat)` lifted to `String`. -/
def strContains (s pat : String) : Bool := containsSub s.data pat.data

/-- `s.len()` (UTF-8 byte length) lifted to `String`. -/
def utf8Length (s : String) : Nat := utf8Len s.data

/-- The quote list built by `get_quote` (fortune.rs lines 135-137): split the
file on the delimiter and drop every span that is empty after trimming.  Note
the kept spans themselves stay untrimmed. -/
def quotes (file : String) : List String :=
  (splitQuotes file).filter (fun s => !(trimChars s.data).isEmpty)

/-- The target length `get_quote` computes for `quote_size = n ≥ 1`
(fortune.rs lines 148-160): start from `SHORT`, halve `n - 1` times with
integer division (`for _ in 1..n { target_length /= 2 }`, skipped when
`n == 1`), then clamp to a minimum of 1. -/
def target_length (n : Nat) : Nat :=
  let t := if n ≠ 1 then (List.range (n - 1)).foldl (fun t _ => t / 2) SHORT else SHORT
  if t < 1 then 1 else t

/-- The set of quotes the filter loop of `get_quote` (fortune.rs lines
162-166) pushes into `tmp`: quotes whose untrimmed byte length is at most the
target length. -/
def targetSet (n : Nat) (file : String) : List String :=
  (quotes file).filter (fun q => decide (utf8Length q ≤ target_length n))

/-- Observable outcome of one `get_quote` invocation.
`nothing`: the early return on an empty quote list — nothing is printed and
the process later exits successfully.
`message s`: `println!` of the fixed string `s` followed by `exit(0)`; no
random selection happens.
`pick pool`: `println!` of `pool[random::random(pool.len())]`, a uniformly
random element of `pool` (uniformity is the contract of `random::random`,
random.rs lines 41-44). -/
inductive QuoteOutput where
  | nothing : QuoteOutput
  | message : String → QuoteOutput
  | pick : List String → QuoteOutput
deriving DecidableEq

/-- Embedding of `get_quote` (fortune.rs lines 130-182) applied to the
contents of the file returned by the weighted selector.  In the source the
(pure) halving loop runs before the `quote_size == 255` test; the test is
hoisted here, which preserves behaviour because the refusal branch ignores
the computed length. -/
def get_quote (quote_size : Nat) (file : String) : QuoteOutput :=
  let qs := quotes file
  if qs.isEmpty then QuoteOutput.nothing
  else if 0 < quote_size then
    if quote_size = 255 then QuoteOutput.message "WE GET IT, YOU WANT A SHORT FORTUNE"
    else
      let tmp := qs.foldl
        (fun acc q => if utf8Length q ≤ target_length quote_size then acc ++ [q] else acc) []
      if tmp.isEmpty then QuoteOutput.pick qs else QuoteOutput.pick tmp
  else QuoteOutput.pick qs

/-- The records one file contributes to `search_fortunes` output (fortune.rs
lines 83-87): the delimiter spans whose raw text contains the pattern, each
printed trimmed.  No emptiness filtering is applied on this path. -/
def searchMatches (pattern file : String) : List String :=
  ((splitQuotes file).filter (fun x => strContains x pattern)).map trimStr

/-- Embedding of `search_fortunes` (fortune.rs lines 75-89): iterate over the
candidate files (contents given in Scanner enumeration order; the scanner
module `file` only performs I/O) and print every match of every file, in
order.  Each emitted record is printed followed by a line containing `%`. -/
def search_fortunes (pattern : String) : List String → List String
  | [] => []
  | f :: fs => searchMatches pattern f ++ search_fortunes pattern fs

/-- The parser as the specification words it (spec §4.3): split on the
delimiter, trim each span, discard spans that become empty. -/
def parseRecordsSpec (file : String) : List String :=
  ((splitQuotes file).map trimStr).filter (fun r => !r.data.isEmpty)

/-- The length-target set as the specification words it: records whose
character count after trimming is at most the target length.  Stated for
comparison with `targetSet`, which embeds the code. -/
def targetSetSpec (n : Nat) (file : String) : List String :=
  (quotes file).filter (fun q => decide ((trimChars q.data).length ≤ target_length n))

/-- Pattern search as the specification words it (spec §4.5): emit every
parsed record (per §4.3) that contains the pattern, files in order.  Stated
for comparison with `search_fortunes`, which embeds the code. -/
def searchFortunesSpec (pattern : String) (files : List String) : List String :=
  (files.map (fun f => (parseRecordsSpec f).filter (fun r => strContains r pattern))).flatten

/-- The comparator passed to the sort in `get_random_file_weighted`
(random.rs line 70): `a.0.partial_cmp(&b.0).unwrap()` compares the byte
sizes only; on unsigned integers `partial_cmp` is total, so the unwrap is
`compare` on the sizes.  A candidate is a (size, path) pair. -/
def size_cmp (a b : Nat × String) : Ordering := compare a.1 b.1

/-- A candidate list is sorted for `size_cmp`: no adjacent pair compares
greater.  This is the full post-condition `sort_unstable_by` guarantees; the
order of equal-size candidates is not specified by it. -/
def sorted_by_size_cmp : List (Nat × String) → Bool
  | a :: b :: t =>
    (match size_cmp a b with | Ordering.gt => false | _ => true) && sorted_by_size_cmp (b :: t)
  | _ => true

/-- `random::random(i)` (random.rs lines 41-44) samples uniformly from
`[0, i)` and, per its documentation and test suite, panics exactly when
`i = 0` (empty range). -/
def random_panics (i : Nat) : Bool := i == 0

/-! ## Helper lemmas -/

theorem list_isEmpty_false {α : Type} (l : List α) (h : l ≠ []) : l.isEmpty = false := by
  cases l with
  | nil => exact absurd rfl h
  | cons a t => rfl

theorem foldl_div2_eq_shiftRight (k s : Nat) :
    (List.range k).foldl (fun t _ => t / 2) s = s >>> k := by
  induction k with
  | zero => rfl
  | succ k ih =>
    rw [List.range_succ, List.foldl_append, ih, Nat.shiftRight_succ]
    rfl

theorem foldl_push_eq_filter (p : String → Prop) [DecidablePred p] :
    ∀ (l acc : List String),
      l.foldl (fun acc q => if p q then acc ++ [q] else acc) acc
        = acc ++ l.filter (fun q => decide (p q)) := by
  intro l
  induction l with
  | nil => intro acc; simp
  | cons a t ih =>
    intro acc
    by_cases h : p a
    · simp [List.foldl_cons, h, ih, List.filter_cons]
    · simp [List.foldl_cons, h, ih, List.filter_cons]

theorem tmp_eq_targetSet (n : Nat) (file : String) :
    (quotes file).foldl
        (fun acc q => if utf8Length q ≤ target_length n then acc ++ [q] else acc) []
      = targetSet n file := by
  simpa [targetSet] using
    foldl_push_eq_filter (fun q => utf8Length q ≤ target_length n) (quotes file) []

theorem get_quote_pick_cases (n : Nat) (file : String) (pool : List String)
    (h : get_quote n file = QuoteOutput.pick pool) :
    (pool = targetSet n file ∨ pool = quotes file) ∧ pool ≠ [] := by
  by_cases hq : (quotes file).isEmpty = true
  · simp [get_quote, hq] at h
  · have hne : quotes file ≠ [] := by
      cases hql : quotes file with
      | nil => rw [hql] at hq; exact absurd rfl hq
      | cons a t => simp
    by_cases hn : 0 < n
    · by_cases h255 : n = 255
      · simp [get_quote, hq, hn, h255] at h
      · simp only [get_quote, hq, hn, h255, if_true, if_false, Bool.false_eq_true,
          if_neg, ite_false, ite_true, tmp_eq_targetSet] at h
        by_cases ht : (targetSet n file).isEmpty = true
        · rw [if_pos ht] at h
          have : pool = quotes file := by
            injection h with h2
            exact h2.symm
          exact ⟨Or.inr this, this ▸ hne⟩
        · rw [if_neg ht] at h
          have hpool : pool = targetSet n file := by
            injection h with h2
            exact h2.symm
          have : targetSet n file ≠ [] := by
            cases htl : targetSet n file with
            | nil => rw [htl] at ht; exact absurd rfl ht
            | cons a t => simp
          exact ⟨Or.inl hpool, hpool ▸ this⟩
    · simp only [get_quote] at h
      rw [if_neg hq, if_neg hn] at h
      have : pool = quotes file := by
        injection h with h2
        exact h2.symm
      exact ⟨Or.inr this, this ▸ hne⟩

theorem contains_nil (hay : List Char) : containsSub hay [] = true := by
  induction hay with
  | nil => rfl
  | cons a t ih => simp [containsSub, ih]

/-! ## Claim theorems -/

/-- Claim C1, counterexample: the claim says Shortness Level 255 prints the
refusal message for every corpus contents, but on a file containing only a
delimiter the record set is empty and `get_quote` returns early, printing
nothing: the emptiness check precedes the level-255 short-circuit. -/
theorem c1_counterexample :
    get_quote 255 "\n%\n" = QuoteOutput.nothing ∧
      get_quote 255 "\n%\n" ≠ QuoteOutput.message "WE GET IT, YOU WANT A SHORT FORTUNE" := by
  decide

/-- Claim C1 (amended): whenever the selected file parses to a non-empty
record set, Shortness Level 255 prints exactly the refusal message and exits
successfully, before any random selection (the outcome carries no selection
pool); when the record set is empty, nothing is printed instead. -/
theorem c1_refusal_short_circuit (file : String) (h : quotes file ≠ []) :
    get_quote 255 file = QuoteOutput.message "WE GET IT, YOU WANT A SHORT FORTUNE" := by
  have hne : (quotes file).isEmpty = false := list_isEmpty_false _ h
  simp [get_quote, hne]

/-- Witness for c1_refusal_short_circuit at the concrete file "hi". -/
theorem c1_refusal_short_circuit_witness :
    get_quote 255 "hi" = QuoteOutput.message "WE GET IT, YOU WANT A SHORT FORTUNE" :=
  c1_refusal_short_circuit "hi" (by decide)

/-- Claim C2: for every Shortness Level n with 1 ≤ n ≤ 254, the target length
computed by get_quote is the constant 150 halved n-1 times by integer division
and clamped to a minimum of 1, i.e. max 1 (150 >>> (n-1)). -/
theorem c2_target_length_eq (n : Nat) (h1 : 1 ≤ n) (h2 : n ≤ 254) :
    target_length n = max 1 (150 >>> (n - 1)) := by
  have hfold : (List.range (n - 1)).foldl (fun t _ => t / 2) SHORT = 150 >>> (n - 1) :=
    foldl_div2_eq_shiftRight (n - 1) SHORT
  rcases eq_or_ne n 1 with h | h
  · subst h; decide
  · have heq : target_length n = if 150 >>> (n - 1) < 1 then 1 else 150 >>> (n - 1) := by
      simp only [target_length, if_pos h, hfold]
    rw [heq]
    split <;> omega

/-- Witness for c2_target_length_eq at n = 3. -/
theorem c2_target_length_eq_witness : target_length 3 = max 1 (150 >>> 2) :=
  c2_target_length_eq 3 (by decide) (by decide)

/-- Claim C3, counterexample: the claim says the target set keeps records by
character count after trimming, but the code compares the untrimmed byte
length.  At level 9 the target length is 1; the record " x " has trimmed
character count 1 but raw length 3, so the code excludes it while the claim
includes it. -/
theorem c3_counterexample :
    targetSet 9 " x " = [] ∧ targetSetSpec 9 " x " = [" x "] := by decide

/-- Claim C3 (amended): the target set built by get_quote contains exactly
those parsed records whose raw (untrimmed) UTF-8 byte length is at most the
target length. -/
theorem c3_target_set_membership (n : Nat) (file : String) (q : String) :
    q ∈ targetSet n file ↔ q ∈ quotes file ∧ utf8Length q ≤ target_length n := by
  simp [targetSet, List.mem_filter]

/-- Claim C4: for a non-empty record set and 1 ≤ n ≤ 255 with n ≠ 255, the
outcome is a uniform pick from the target set when it is non-empty, and
otherwise a uniform pick from the full unfiltered record set; in both cases
the caller gets a selection outcome, never an error or crash. -/
theorem c4_selection_policy (n : Nat) (file : String)
    (hne : quotes file ≠ []) (h1 : 1 ≤ n) (h255 : n ≠ 255) :
    (targetSet n file ≠ [] → get_quote n file = QuoteOutput.pick (targetSet n file)) ∧
      (targetSet n file = [] → get_quote n file = QuoteOutput.pick (quotes file)) := by
  have h0 : 0 < n := h1
  have hq : (quotes file).isEmpty = false := list_isEmpty_false _ hne
  refine ⟨fun ht => ?_, fun ht => ?_⟩
  · have ht2 : (targetSet n file).isEmpty = false := list_isEmpty_false _ ht
    simp [get_quote, hq, h0, h255, tmp_eq_targetSet, ht2]
  · simp [get_quote, hq, h0, h255, tmp_eq_targetSet, ht]

/-- Witness for c4_selection_policy at n = 1 and file "hi". -/
theorem c4_selection_policy_witness :
    get_quote 1 "hi" = QuoteOutput.pick (targetSet 1 "hi") :=
  (c4_selection_policy 1 "hi" (by decide) (by decide) (by decide)).1 (by decide)

/-- Claim C5, counterexample: the claim says no operation ever surfaces a
record that is empty after trimming, but search_fortunes with the empty
pattern on a delimiter-only file emits blank records. -/
theorem c5_counterexample :
    (search_fortunes "" ["\n%\n"]).any (fun q => (trimChars q.data).isEmpty) = true := by
  decide

/-- Claim C5 (amended): in get_quote (random-pick printing) every record in
any selection pool is non-blank after trimming, so a blank record is never
printed there; search_fortunes does not enforce this invariant. -/
theorem c5_no_blank_in_pick (n : Nat) (file : String) (pool : List String) (q : String)
    (h : get_quote n file = QuoteOutput.pick pool) (hq : q ∈ pool) :
    (trimChars q.data).isEmpty = false := by
  have hmem : q ∈ quotes file := by
    rcases (get_quote_pick_cases n file pool h).1 with h1 | h1
    · subst h1; exact List.mem_of_mem_filter hq
    · subst h1; exact hq
  have hp := List.of_mem_filter hmem
  simpa using hp

/-- Witness for c5_no_blank_in_pick at n = 0, file "hi", pool ["hi"]. -/
theorem c5_no_blank_in_pick_witness : (trimChars ("hi" : String).data).isEmpty = false :=
  c5_no_blank_in_pick 0 "hi" ["hi"] "hi" (by decide) (by decide)

/-- Claim C6, counterexample: the claim says search emits exactly the parsed
records (trimmed, blank-free, per spec §4.3) containing the pattern, but the
code tests containment on the raw span before trimming: for pattern " " and
file " ab " the code emits "ab" although the record "ab" does not contain the
pattern. -/
theorem c6_counterexample :
    search_fortunes " " [" ab "] = ["ab"] ∧ searchFortunesSpec " " [" ab "] = [] := by
  decide

/-- Claim C6 (amended): search_fortunes emits, for every file in enumeration
order and every delimiter-separated span in parse order whose raw (untrimmed)
text contains the pattern as a substring, that span trimmed, followed by a
delimiter line; spans empty after trimming are not discarded. -/
theorem c6_search_emission (pattern : String) (files : List String) :
    search_fortunes pattern files
      = (files.map (fun f =>
          ((splitQuotes f).filter (fun x => strContains x pattern)).map trimStr)).flatten := by
  induction files with
  | nil => rfl
  | cons f fs ih => simp [search_fortunes, searchMatches, ih]

/-- Claim C7: the comparator actually used by the weighted selector compares
sizes only, so both relative orders of two equal-size candidates satisfy its
sortedness post-condition; hence the unstable sort the code performs
(`sort_unstable_by`) gives no stability guarantee, although the source
comment claims the sort is stable.  Demonstrated on two 5-byte candidates. -/
theorem c7_tie_order_undetermined :
    sorted_by_size_cmp [(5, "b"), (5, "a")] = true ∧
      sorted_by_size_cmp [(5, "a"), (5, "b")] = true ∧
      [((5 : Nat), "b"), (5, "a")] ≠ [((5 : Nat), "a"), (5, "b")] := by decide

/-- Claim C8: a file containing only delimiters parses to zero records, and
for every shortness level an empty record set makes get_quote print nothing
and return (the invocation then exits successfully). -/
theorem c8_empty_record_set :
    quotes "\n%\n\n%\n" = [] ∧
      ∀ (n : Nat) (file : String), quotes file = [] → get_quote n file = QuoteOutput.nothing := by
  refine ⟨by decide, fun n file h => ?_⟩
  simp [get_quote, h]

/-- Witness for c8_empty_record_set at n = 7 and the empty file. -/
theorem c8_empty_record_set_witness : get_quote 7 "" = QuoteOutput.nothing :=
  c8_empty_record_set.2 7 "" (by decide)

/-- Claim C9: every selection pool get_quote passes to random::random is
non-empty, so the length argument is strictly positive and the empty-range
panic branch of random is unreachable from get_quote. -/
theorem c9_random_never_panics (n : Nat) (file : String) (pool : List String)
    (h : get_quote n file = QuoteOutput.pick pool) :
    random_panics pool.length = false := by
  have hne : pool ≠ [] := (get_quote_pick_cases n file pool h).2
  have hlen : pool.length ≠ 0 := by
    cases pool with
    | nil => exact absurd rfl hne
    | cons a t => simp
  simp [random_panics, hlen]

/-- Witness for c9_random_never_panics at n = 0, file "hi". -/
theorem c9_random_never_panics_witness :
    random_panics (["hi"] : List String).length = false :=
  c9_random_never_panics 0 "hi" ["hi"] (by decide)

/-- Claim C10: with the empty pattern, search_fortunes emits every
delimiter-separated span of every candidate file, trimmed and in order,
including spans that are empty or whitespace-only, because every string
contains the empty string as a substring. -/
theorem c10_empty_pattern (files : List String) :
    search_fortunes "" files
      = (files.map (fun f => (splitQuotes f).map trimStr)).flatten := by
  have hall : ∀ s : String, strContains s "" = true := fun s => contains_nil s.data
  induction files with
  | nil => rfl
  | cons f fs ih =>
    have hfl : (splitQuotes f).filter (fun x => strContains x "") = splitQuotes f :=
      List.filter_eq_self.mpr (fun a _ => hall a)
    simp [search_fortunes, searchMatches, hfl, ih]
